import Mathlib

/-!
Verification of the command-execution and agent-orchestration subsystem of
`cllm` (`src/cllm/tools.py`, `src/cllm/context.py`, `src/cllm/agent.py`).

The Python code is shallowly embedded: pure functions become Lean functions,
the external collaborators (the shell, the LLM completion call, the Jinja2
renderer, the interactive confirmation prompt) become explicit oracle
parameters, and the agent's `while` loop becomes a fuel-indexed recursion.
-/

namespace Cllm

/-! ## `fnmatch` — Python's glob-style pattern matching

`fnmatch.fnmatch(name, pattern)` (case-sensitive on POSIX): `*` matches any
run of characters, `?` matches one character, `[seq]` / `[!seq]` match a
character (not) in the set, an unterminated `[` is a literal `[`.
The matcher is written with explicit fuel so that it is structurally
recursive and reduces inside the kernel; `pattern.length + name.length + 1`
steps always suffice because every step either consumes a pattern token or
consumes one character of the name while keeping a leading `*`. -/

/-- Split a bracket-expression body at its closing `]`:
returns the characters before the first `]` and the remainder after it. -/
def breakClose : List Char → Option (List Char × List Char)
  | [] => none
  | ']' :: rest => some ([], rest)
  | c :: rest =>
    match breakClose rest with
    | some (stuff, r) => some (c :: stuff, r)
    | none => none

/-- Parse a bracket expression (the characters after `[`): returns
(negated?, set body, rest of the pattern), or `none` when there is no
closing `]` (in which case `fnmatch` treats `[` as a literal character).
A `]` in the first position of the body is a literal member of the set. -/
def parseBracket (ps : List Char) : Option (Bool × List Char × List Char) :=
  match ps with
  | '!' :: ']' :: rest =>
    match breakClose rest with
    | some (stuff, r) => some (true, ']' :: stuff, r)
    | none => none
  | '!' :: rest =>
    match breakClose rest with
    | some (stuff, r) => some (true, stuff, r)
    | none => none
  | ']' :: rest =>
    match breakClose rest with
    | some (stuff, r) => some (false, ']' :: stuff, r)
    | none => none
  | rest =>
    match breakClose rest with
    | some (stuff, r) => some (false, stuff, r)
    | none => none

/-- Membership of a character in a bracket-set body, honouring `a-z` ranges
(a `-` that is first or last is a literal). -/
def classMember (c : Char) : List Char → Bool
  | a :: '-' :: b :: rest => (a ≤ c && c ≤ b) || classMember c rest
  | a :: rest => (a == c) || classMember c rest
  | [] => false

/-- The glob matcher itself, fuel-indexed (fuel only ever runs out on fuel
smaller than `pattern.length + name.length + 1`). -/
def globMatch : Nat → List Char → List Char → Bool
  | 0, _, _ => false
  | _ + 1, [], s => s.isEmpty
  | fuel + 1, '*' :: ps, s =>
    globMatch fuel ps s ||
      (match s with
       | [] => false
       | _ :: t => globMatch fuel ('*' :: ps) t)
  | fuel + 1, '?' :: ps, s =>
    (match s with
     | [] => false
     | _ :: t => globMatch fuel ps t)
  | fuel + 1, '[' :: ps, s =>
    (match parseBracket ps with
     | some (neg, stuff, rest) =>
       match s with
       | [] => false
       | c :: t => (classMember c stuff != neg) && globMatch fuel rest t
     | none =>
       match s with
       | [] => false
       | c :: t => (c == '[') && globMatch fuel ps t)
  | fuel + 1, p :: ps, s =>
    (match s with
     | [] => false
     | c :: t => (c == p) && globMatch fuel ps t)

/-- `fnmatch.fnmatch(name, pattern)` on a POSIX system (`normcase` is the
identity there, so this is `fnmatchcase`). -/
def fnmatch (name pattern : String) : Bool :=
  globMatch (pattern.length + name.length + 1) pattern.data name.data

/-! ## Policy configuration (`dynamic_commands` section of the config dict)

A Python dict read with `.get(key, default)` is embedded as a structure
whose fields carry those defaults; `allow` and `available_commands` are
read with default `None`, so they are `Option`s (`none` = key absent). -/

/-- One entry of `available_commands`: a dict with a `command` (read with
default `""`) and a free-form description. -/
structure CmdDef where
  command : String
  description : String := ""
  deriving Repr, DecidableEq

/-- The `dynamic_commands` section, with the defaults used at each
`.get` site in `tools.py` and `agent.py`. -/
structure DynamicCommands where
  deny : List String := []
  available_commands : Option (List CmdDef) := none
  allow : Option (List String) := none
  max_commands : Nat := 10
  timeout : Nat := 30
  deriving Repr

/-- The configuration dict, restricted to the keys the embedded code
reads (`config.get("dynamic_commands", {})` gives the defaults). -/
structure Config where
  dynamic_commands : DynamicCommands := {}
  default_system_message : Option String := none
  deriving Repr

/-- The fixed safe-default pattern list `SAFE_DEFAULT_COMMANDS`
(`tools.py`, read-only operations). -/
def SAFE_DEFAULT_COMMANDS : List String :=
  [ "git status*", "git log*", "git diff*", "git show*", "git branch*",
    "ls*", "cat *", "head *", "tail *", "grep *", "find *",
    "npm test*", "pytest*", "make test*", "df*", "ps*",
    "whoami", "pwd", "echo *" ]

/-- `is_command_allowed(command, config)` from `tools.py`:
denylist first (rejects unconditionally), then `available_commands`
(exact match or `pattern + "*"`), then the `allow` list; if either of
those two was configured the function returns `False` here, otherwise the
safe defaults are consulted. -/
def is_command_allowed (command : String) (config : Config) : Bool :=
  let dc := config.dynamic_commands
  if dc.deny.any (fun pattern => fnmatch command pattern) then
    false
  else if (match dc.available_commands with
           | some cmds =>
             cmds.any (fun cmd_def =>
               command == cmd_def.command ||
                 fnmatch command (cmd_def.command ++ "*"))
           | none => false) then
    true
  else if (match dc.allow with
           | some allowlist =>
             allowlist.any (fun pattern => fnmatch command pattern)
           | none => false) then
    true
  else if dc.available_commands.isSome || dc.allow.isSome then
    false
  else
    SAFE_DEFAULT_COMMANDS.any (fun pattern => fnmatch command pattern)

/-- `get_disallowed_reason(command, config)` from `tools.py`. -/
def get_disallowed_reason (command : String) (config : Config) : String :=
  let dc := config.dynamic_commands
  match dc.deny.find? (fun pattern => fnmatch command pattern) with
  | some pattern =>
    "Command '" ++ command ++ "' matches denylist pattern: " ++ pattern
  | none =>
    if dc.available_commands.isSome || dc.allow.isSome then
      "Command '" ++ command ++ "' is not in the configured allowed commands. " ++
        "See dynamic_commands.available_commands or dynamic_commands.allow in your Cllmfile.yml"
    else
      "Command '" ++ command ++ "' is not in the safe default command list. " ++
        "To allow this command, add it to dynamic_commands.allow or dynamic_commands.available_commands " ++
        "in your Cllmfile.yml"

/-! ## Command execution (`context.py`)

The shell is an external collaborator: a `ProcBehavior` oracle says, for
each command, what its subprocess did (failed to spawn, exceeded the
timeout, or exited with a return code and output).  `_execute_command_async`
is then a pure function of that behaviour; alongside the `CommandResult` it
records the kill actions it performed, so that the timeout path's
`proc.kill()` is visible in the embedding. -/

/-- `FailureMode` from `context.py`. -/
inductive FailureMode where
  | warn
  | ignore
  | fail
  deriving Repr, DecidableEq

/-- `ContextCommand` from `context.py` (defaults: `on_failure = WARN`,
`timeout = 10`). -/
structure ContextCommand where
  name : String
  command : String
  on_failure : FailureMode := .warn
  timeout : Nat := 10
  deriving Repr, DecidableEq

/-- `CommandResult` from `context.py`. -/
structure CommandResult where
  name : String
  output : String
  success : Bool
  error_message : Option String := none
  deriving Repr, DecidableEq

/-- What the spawned subprocess of one command did (the shell side of
`asyncio.create_subprocess_shell` + `communicate`). -/
inductive ProcBehavior where
  | spawnError (msg : String)
  | timesOut
  | completes (returncode : Int) (stdout stderr : String)
  deriving Repr, DecidableEq

/-- A kill the executor performs.  The code's timeout path calls
`proc.kill()`, a SIGKILL to the spawned shell process only; killing the
whole tree (children included) would be a process-group kill, which the
code never performs. -/
inductive KillAction where
  | killProcess
  | killProcessGroup
  deriving Repr, DecidableEq

/-- `_execute_command_async(cmd, cwd)` from `context.py`, as a function of
the subprocess behaviour; `String.trim` models `str.strip()`.  Returns the
`CommandResult` together with the kill actions performed. -/
def execute_command_async (behave : ContextCommand → ProcBehavior)
    (cmd : ContextCommand) : CommandResult × List KillAction :=
  match behave cmd with
  | .spawnError e =>
    ({ name := cmd.name, output := "", success := false,
       error_message := some ("Execution error: " ++ e) }, [])
  | .timesOut =>
    ({ name := cmd.name, output := "", success := false,
       error_message := some ("Command timed out after " ++
         toString cmd.timeout ++ " seconds") }, [.killProcess])
  | .completes returncode stdout stderr =>
    let combined := if stderr.trim ≠ "" then stdout ++ "\n" ++ stderr else stdout
    if returncode = 0 then
      ({ name := cmd.name, output := combined.trim, success := true }, [])
    else
      ({ name := cmd.name, output := combined.trim, success := false,
         error_message := some ("Command exited with code " ++
           toString returncode) }, [])

/-- Modelled from the spec: "kill the process (and its children)", "leaves
no running process" — for the children of the spawned shell to be killed
too, the executor would have to kill the whole process group (tree). -/
def killsProcessTree (actions : List KillAction) : Bool :=
  actions.contains KillAction.killProcessGroup

/-- Model of `asyncio.gather`: the tasks finish in an arbitrary completion
order (`completionOrder`, a permutation of the task indices); each finished
task deposits `(its index, its result)`, and `gather` hands the results
back in index order, not completion order. -/
def gatherResults (runCmd : ContextCommand → CommandResult)
    (commands : List ContextCommand) (completionOrder : List Nat) :
    List CommandResult :=
  let completed := completionOrder.filterMap
    (fun i => (commands[i]?).map (fun c => (i, runCmd c)))
  (List.range commands.length).filterMap (fun i => completed.lookup i)

/-- `execute_commands(commands, cwd, parallel)` from `context.py`:
empty input short-circuits, `parallel=True` is one `asyncio.gather` over
all commands, `parallel=False` executes them one by one in input order.
`runCmd` is the single-command executor (the `cwd` is folded into it);
`completionOrder` is the gather model's completion schedule. -/
def execute_commands (runCmd : ContextCommand → CommandResult)
    (commands : List ContextCommand) (parallel : Bool)
    (completionOrder : List Nat) : List CommandResult :=
  if commands.isEmpty then []
  else if parallel then gatherResults runCmd commands completionOrder
  else commands.map runCmd

/-- `format_context_block(result)` from `context.py` (`if not
result.output:` is the empty-string test). -/
def format_context_block (result : CommandResult) : String :=
  if result.output = "" then
    "--- Context: " ++ result.name ++ " ---\n(no output)\n--- End Context ---"
  else
    "--- Context: " ++ result.name ++ " ---\n" ++ result.output ++
      "\n--- End Context ---"

/-- Python's `x or "Unknown error"` on an optional string (`None` and `""`
are both falsy). -/
def orUnknownError : Option String → String
  | some m => if m = "" then "Unknown error" else m
  | none => "Unknown error"

/-- `format_error_block(result)` from `context.py`. -/
def format_error_block (result : CommandResult) : String :=
  let error_msg := orUnknownError result.error_message
  let output_section :=
    if result.output ≠ "" then "\nPartial output:\n" ++ result.output else ""
  "--- Context Error: " ++ result.name ++ " ---\n" ++ error_msg ++
    output_section ++ "\n--- End Context ---"

/-! ## Context injection (`inject_context` in `context.py`)

The Jinja2 renderer is an external collaborator: `render` is
`render_command_template` already applied to the variable context
(`.error` = it raised `TemplateError`), and `availableDesc` is
`get_available_variables_description(context_values)`. -/

/-- The two exceptions `inject_context` can raise: a re-raised
`TemplateError`, or the `RuntimeError` for a failed `on_failure=FAIL`
command. -/
inductive InjectError where
  | template (msg : String)
  | commandFailed (msg : String)
  deriving Repr, DecidableEq

/-- The enriched message `inject_context` re-raises a `TemplateError`
with (`if available_desc:` is the empty-string test). -/
def templateErrorMessage (availableDesc : String)
    (cmd : ContextCommand) (err : String) : String :=
  let message := "In context command '" ++ cmd.name ++ "': " ++ err
  if availableDesc ≠ "" then message ++ "\n\n" ++ availableDesc else message

/-- The first loop of `inject_context`: render every command's template,
aborting at the first failure (nothing has been executed yet). -/
def renderCommands (render : String → Except String String)
    (availableDesc : String) :
    List ContextCommand → Except String (List ContextCommand)
  | [] => .ok []
  | cmd :: rest =>
    match render cmd.command with
    | .error err => .error (templateErrorMessage availableDesc cmd err)
    | .ok rendered_command =>
      match renderCommands render availableDesc rest with
      | .error err => .error err
      | .ok rs => .ok ({ cmd with command := rendered_command } :: rs)

/-- The second loop of `inject_context`: walk the `(command, result)`
pairs, collecting context blocks; a failed `FAIL` command raises
`RuntimeError` (Python renders a `None` error message as `"None"`),
a failed `WARN` command contributes an error block, a failed `IGNORE`
command is dropped. -/
def processResults : List (ContextCommand × CommandResult) → Except String (List String)
  | [] => .ok []
  | (cmd, result) :: rest =>
    if result.success then
      (processResults rest).map (fun blocks => format_context_block result :: blocks)
    else
      match cmd.on_failure with
      | .fail =>
        .error ("Context command '" ++ cmd.name ++ "' failed: " ++
          (match result.error_message with
           | some m => m
           | none => "None"))
      | .warn =>
        (processResults rest).map (fun blocks => format_error_block result :: blocks)
      | .ignore => processResults rest

/-- `inject_context(prompt, commands, cwd, parallel, template_context)` from
`context.py`.  Besides the outcome it returns the list of commands that
were handed to `execute_commands` — i.e. actually executed — so that the
"what ran before the abort" behaviour is visible: nothing on a template
error, the whole rendered batch otherwise (the `FAIL` check only happens
after `execute_commands` has run every command). -/
def inject_context (render : String → Except String String)
    (availableDesc : String) (runCmd : ContextCommand → CommandResult)
    (parallel : Bool) (completionOrder : List Nat)
    (prompt : String) (commands : List ContextCommand) :
    Except InjectError String × List ContextCommand :=
  if commands.isEmpty then (.ok prompt, [])
  else
    match renderCommands render availableDesc commands with
    | .error err => (.error (.template err), [])
    | .ok rendered_commands =>
      let results := execute_commands runCmd rendered_commands parallel completionOrder
      match processResults (rendered_commands.zip results) with
      | .error msg => (.error (.commandFailed msg), rendered_commands)
      | .ok context_blocks =>
        if context_blocks.isEmpty then (.ok prompt, rendered_commands)
        else
          (.ok (String.intercalate "\n\n" context_blocks ++ "\n\n" ++ prompt),
            rendered_commands)

/-! ## Agent loop (`agent.py`)

The LLM completion service is an external collaborator: `llm` maps the
current message history to either an exception (`litellm.completion`
raised) or a decoded response.  The interactive confirmation prompt is the
oracle `confirm`.  The Python `while` loop is a fuel-indexed recursion:
`outcome = none` means the fuel ran out (the Python loop would still be
running), every real exit is `some`. -/

/-- One tool call from the LLM.  `arguments` is the outcome of
`json.loads(tool_call.function.arguments)` followed by
`args.get("command", "")` / `args.get("reason", "No reason provided")`:
`.ok (command, reason)` on success, `.error e` when parsing raised. -/
structure ToolCall where
  id : String
  arguments : Except String (String × String)
  deriving Repr

/-- A message of the conversation history. -/
inductive Message where
  | system (content : String)
  | user (content : String)
  | assistant (tool_calls : List ToolCall)
  | tool (tool_call_id : String) (content : String)
  deriving Repr

/-- A decoded LLM response: the `finish_reason == "tool_calls"` branch, the
`"stop"` branch, or any other finish reason (`content = none` or
`content = some ""` are both falsy for `message.content`). -/
inductive LLMResponse where
  | toolCalls (calls : List ToolCall)
  | stop (content : Option String)
  | other (finish_reason : String) (content : Option String)
  deriving Repr

/-- `execute_single_command(command, timeout)` from `agent.py`: wraps the
command in a `ContextCommand` named "Dynamic Command", runs it via
`execute_commands` (sequential, singleton batch) and formats the output;
`.error` is a raised `AgentExecutionError`. -/
def execute_single_command (runCmd : ContextCommand → CommandResult)
    (command : String) (timeout : Nat) : Except String String :=
  let ctx_cmd : ContextCommand :=
    { name := "Dynamic Command", command := command, timeout := timeout }
  match execute_commands runCmd [ctx_cmd] false [] with
  | [] => .error "No command result returned"
  | result :: _ =>
    if result.success = false then
      let error_msg := orUnknownError result.error_message
      if result.output ≠ "" then
        .ok ("Error: " ++ error_msg ++ "\n\nPartial output:\n" ++ result.output)
      else
        .ok ("Error: " ++ error_msg)
    else
      .ok (if result.output = "" then "(no output)" else result.output)

/-- Outcome of processing the tool calls of one LLM turn: either the user
declined a confirmation (the loop returns a fixed denial string), or the
loop goes back to the next completion call with the grown history and
command count. -/
inductive TurnResult where
  | denied (count : Nat)
  | next (messages : List Message) (count : Nat)
  deriving Repr

/-- The count a turn ended with. -/
def TurnResult.count : TurnResult → Nat
  | .denied count => count
  | .next _ count => count

/-- The tool-result message fed back for a tool call that never reached
execution: a parse failure, or a command that failed validation
(`validate_command` raising `CommandValidationError`). -/
def rejectedToolResult (config : Config) (tc : ToolCall) : Message :=
  match tc.arguments with
  | .error e => .tool tc.id ("Failed to parse tool call arguments: " ++ e)
  | .ok (command, _) =>
    .tool tc.id ("Command validation failed: " ++ get_disallowed_reason command config)

/-- The tool-result content for an executed command: the output of
`execute_single_command`, or — when it raised `AgentExecutionError` —
the `"Execution failed: ..."` text of the `except` clause. -/
def toolOutput (runCmd : ContextCommand → CommandResult) (config : Config)
    (command : String) : String :=
  match execute_single_command runCmd command config.dynamic_commands.timeout with
  | .ok o => o
  | .error e => "Execution failed: " ++ e

/-- The `for tool_call in message.tool_calls:` body of
`execute_with_dynamic_commands`: parse, validate, optionally confirm,
execute, append the tool result, count the execution, and `break` once the
count reaches `max_commands`.  Parse and validation failures append an
explanatory tool result, do not count, and `continue`. -/
def processToolCalls (config : Config) (runCmd : ContextCommand → CommandResult)
    (confirm : String → String → Bool) (require_confirmation : Bool) :
    List ToolCall → List Message → Nat → TurnResult
  | [], messages, count => .next messages count
  | tc :: rest, messages, count =>
    match tc.arguments with
    | .error e =>
      processToolCalls config runCmd confirm require_confirmation rest
        (messages ++ [.tool tc.id ("Failed to parse tool call arguments: " ++ e)])
        count
    | .ok (command, reason) =>
      if is_command_allowed command config = false then
        processToolCalls config runCmd confirm require_confirmation rest
          (messages ++ [.tool tc.id ("Command validation failed: " ++
            get_disallowed_reason command config)])
          count
      else if require_confirmation && !(confirm command reason) then
        .denied count
      else
        if config.dynamic_commands.max_commands ≤ count + 1 then
          .next (messages ++ [.tool tc.id (toolOutput runCmd config command)]) (count + 1)
        else
          processToolCalls config runCmd confirm require_confirmation rest
            (messages ++ [.tool tc.id (toolOutput runCmd config command)]) (count + 1)

/-- The `AgentExecutionError` raised when the `while` loop exits because
`commands_executed` reached `max_commands`. -/
def budget_error_message (max_commands : Nat) : String :=
  "Maximum command execution limit reached (" ++ toString max_commands ++
    " commands). The LLM may be stuck in a loop or the task requires more " ++
    "commands than allowed. Increase max_commands in your configuration if needed."

/-- Result of a run of the agent loop: `outcome = none` when the fuel ran
out, otherwise `.ok` is the returned string and `.error` a raised
`AgentExecutionError`; `commands_executed` is the final counter value. -/
structure AgentResult where
  outcome : Option (Except String String)
  commands_executed : Nat
  deriving Repr

/-- The `while commands_executed < max_commands:` loop of
`execute_with_dynamic_commands`, fuel-indexed. -/
def agentLoop (config : Config) (llm : List Message → Except String LLMResponse)
    (runCmd : ContextCommand → CommandResult) (confirm : String → String → Bool)
    (require_confirmation : Bool) :
    Nat → List Message → Nat → AgentResult
  | 0, _, count => { outcome := none, commands_executed := count }
  | fuel + 1, messages, count =>
    if count < config.dynamic_commands.max_commands then
      match llm messages with
      | .error e =>
        { outcome := some (.error ("LLM API call failed: " ++ e)),
          commands_executed := count }
      | .ok (.toolCalls calls) =>
        match processToolCalls config runCmd confirm require_confirmation calls
            (messages ++ [.assistant calls]) count with
        | .denied count' =>
          { outcome := some (.ok "Command execution denied by user."),
            commands_executed := count' }
        | .next messages' count' =>
          agentLoop config llm runCmd confirm require_confirmation fuel messages' count'
      | .ok (.stop content) =>
        match content with
        | some c =>
          if c ≠ "" then { outcome := some (.ok c), commands_executed := count }
          else { outcome := some (.error "LLM returned empty response"),
                 commands_executed := count }
        | none =>
          { outcome := some (.error "LLM returned empty response"),
            commands_executed := count }
      | .ok (.other finish_reason content) =>
        match content with
        | some c =>
          if c ≠ "" then { outcome := some (.ok c), commands_executed := count }
          else { outcome := some (.error ("Unexpected finish reason: " ++ finish_reason)),
                 commands_executed := count }
        | none =>
          { outcome := some (.error ("Unexpected finish reason: " ++ finish_reason)),
            commands_executed := count }
    else
      { outcome := some (.error (budget_error_message config.dynamic_commands.max_commands)),
        commands_executed := count }

/-- `execute_with_dynamic_commands(prompt, config, require_confirmation,
verbose, schema)` from `agent.py`: seed the history with the optional
system message and the user prompt, start at `commands_executed = 0`.
(`verbose` only prints; `schema` only adds a `response_format` to the
completion request, which is the `llm` oracle's side of the boundary.) -/
def execute_with_dynamic_commands (config : Config)
    (llm : List Message → Except String LLMResponse)
    (runCmd : ContextCommand → CommandResult) (confirm : String → String → Bool)
    (require_confirmation : Bool) (fuel : Nat) (prompt : String) : AgentResult :=
  let messages : List Message :=
    match config.default_system_message with
    | some sys => [.system sys, .user prompt]
    | none => [.user prompt]
  agentLoop config llm runCmd confirm require_confirmation fuel messages 0

/-- A sample executor oracle used in concrete instantiations: every
command succeeds and echoes its command line. -/
def sampleRun : ContextCommand → CommandResult :=
  fun c => { name := c.name, output := "output of " ++ c.command, success := true }

/-- A sample renderer oracle used in concrete instantiations: the template
`cat missing.tpl` fails to render, everything else renders to itself. -/
def sampleRender : String → Except String String :=
  fun s => if s = "cat missing.tpl"
    then .error "Undefined variable in command template: MISSING"
    else .ok s

/-- A sample executor oracle whose `exit 1` command fails and whose other
commands succeed. -/
def sampleRunFailing : ContextCommand → CommandResult :=
  fun c => if c.command = "exit 1"
    then { name := c.name, output := "", success := false,
           error_message := some "Command exited with code 1" }
    else { name := c.name, output := "ok", success := true }

/-- A sample configuration with `max_commands = 3` and no command lists
configured (so the safe defaults apply). -/
def sampleBudgetConfig : Config :=
  { dynamic_commands := { max_commands := 3 } }

/-- A sample LLM oracle that requests another `git status` on every turn,
never producing a final answer. -/
def sampleGreedyLLM : List Message → Except String LLMResponse :=
  fun _ => .ok (.toolCalls
    [{ id := "call_1", arguments := .ok ("git status", "inspect the repo") }])

end Cllm
namespace Cllm

/-- Claim C1: any match against a deny pattern makes `is_command_allowed`
return `false`, unconditionally, regardless of `available_commands`, the
allow list, or the safe defaults. -/
theorem claim_C1_deny_overrides_everything
    (command : String) (config : Config)
    (h : ∃ pattern ∈ config.dynamic_commands.deny, fnmatch command pattern = true) :
    is_command_allowed command config = false := by
  obtain ⟨p, hp, hm⟩ := h
  have hany : config.dynamic_commands.deny.any
      (fun pattern => fnmatch command pattern) = true :=
    List.any_eq_true.mpr ⟨p, hp, hm⟩
  simp only [is_command_allowed, hany, if_true]

/-- Witness for C1: deny pattern `rm *` rejects `rm -rf /` even though the
configured allow pattern `*` would accept it. -/
theorem claim_C1_witness :
    is_command_allowed "rm -rf /"
      { dynamic_commands := { deny := ["rm *"], allow := some ["*"] } } = false :=
  claim_C1_deny_overrides_everything "rm -rf /" _ ⟨"rm *", by decide, by decide⟩

/-- Claim C3: the safe defaults are consulted only when neither
`available_commands` nor `allow` is configured; configuring either one makes
every command that misses the configured lists rejected, even a safe-default
command.  Concretely: with `allow = ["npm*"]`, `git status` is rejected;
with no configuration at all, `git status` is allowed and `rm -rf /` is
rejected. -/
theorem claim_C3_safe_defaults_disabled_when_configured :
    (∀ (command : String) (config : Config),
      (config.dynamic_commands.available_commands.isSome ∨
        config.dynamic_commands.allow.isSome) →
      (∀ cmds, config.dynamic_commands.available_commands = some cmds →
        ∀ cd ∈ cmds,
          (command == cd.command || fnmatch command (cd.command ++ "*")) = false) →
      (∀ allowlist, config.dynamic_commands.allow = some allowlist →
        ∀ pattern ∈ allowlist, fnmatch command pattern = false) →
      is_command_allowed command config = false)
    ∧ is_command_allowed "git status"
        { dynamic_commands := { allow := some ["npm*"] } } = false
    ∧ is_command_allowed "git status" {} = true
    ∧ is_command_allowed "rm -rf /" {} = false := by
  refine ⟨?_, by decide, by decide, by decide⟩
  intro command config h1 h2 h3
  cases havail : config.dynamic_commands.available_commands with
  | some cmds =>
    have hc2 : cmds.any (fun cd =>
        command == cd.command || fnmatch command (cd.command ++ "*")) = false :=
      List.any_eq_false.mpr (fun cd hcd => by simp [h2 cmds havail cd hcd])
    cases hal : config.dynamic_commands.allow with
    | some al =>
      have hc3 : al.any (fun pattern => fnmatch command pattern) = false :=
        List.any_eq_false.mpr (fun p hp => by simp [h3 al hal p hp])
      simp [is_command_allowed, havail, hal, hc2, hc3]
    | none =>
      simp [is_command_allowed, havail, hal, hc2]
  | none =>
    cases hal : config.dynamic_commands.allow with
    | some al =>
      have hc3 : al.any (fun pattern => fnmatch command pattern) = false :=
        List.any_eq_false.mpr (fun p hp => by simp [h3 al hal p hp])
      simp [is_command_allowed, havail, hal, hc3]
    | none =>
      rw [havail, hal] at h1
      simp at h1

/-- Witness for C3: `allow = ["npm*"]` is configured and `git status`
(a safe default) misses both configured lists, so it is rejected. -/
theorem claim_C3_witness :
    is_command_allowed "git status"
      { dynamic_commands := { allow := some ["npm*"] } } = false :=
  claim_C3_safe_defaults_disabled_when_configured.1 "git status"
    { dynamic_commands := { allow := some ["npm*"] } }
    (Or.inr (by decide))
    (fun cmds hcmds => by simp at hcmds)
    (fun allowlist hal => by
      simp only [Option.some.injEq] at hal
      subst hal
      intro pattern hp
      simp only [List.mem_singleton] at hp
      subst hp
      decide)

/-- Claim C4: with `available_commands` configured and no deny match, the
command is accepted exactly when it equals a declared entry, matches
`"<declared>*"`, or — the fall-through — matches a configured allow
pattern. -/
theorem claim_C4_available_miss_falls_through_to_allow
    (command : String) (config : Config) (cmds : List CmdDef)
    (havail : config.dynamic_commands.available_commands = some cmds)
    (hdeny : ∀ pattern ∈ config.dynamic_commands.deny, fnmatch command pattern = false) :
    is_command_allowed command config = true ↔
      ((∃ cd ∈ cmds, command = cd.command ∨ fnmatch command (cd.command ++ "*") = true) ∨
       (∃ allowlist, config.dynamic_commands.allow = some allowlist ∧
          ∃ pattern ∈ allowlist, fnmatch command pattern = true)) := by
  have hd : config.dynamic_commands.deny.any (fun p => fnmatch command p) = false :=
    List.any_eq_false.mpr (fun p hp => by simp [hdeny p hp])
  cases hal : config.dynamic_commands.allow with
  | some al =>
    simp [is_command_allowed, havail, hal, hd, List.any_eq_true]
  | none =>
    simp [is_command_allowed, havail, hal, hd, List.any_eq_true]

/-- Witness for C4: `available_commands = [npm install]` misses `git log`,
but the configured allow pattern `git*` accepts it (the fall-through). -/
theorem claim_C4_witness :
    is_command_allowed "git log"
      { dynamic_commands :=
          { available_commands := some [{ command := "npm install" }],
            allow := some ["git*"] } } = true :=
  (claim_C4_available_miss_falls_through_to_allow "git log" _ _ rfl
      (by intro pattern hp; simp at hp)).mpr
    (Or.inr ⟨["git*"], rfl, "git*", by decide, by decide⟩)

end Cllm
namespace Cllm

/-- Claim C10: every `CommandResult` the executor produces satisfies
`success = true` iff `error_message = none` — success results never carry
an error message, and every failure path (timeout, nonzero exit, spawn
exception) sets one. -/
theorem claim_C10_success_iff_no_error_message
    (behave : ContextCommand → ProcBehavior) (cmd : ContextCommand) :
    (execute_command_async behave cmd).1.success = true ↔
      (execute_command_async behave cmd).1.error_message = none := by
  unfold execute_command_async
  cases behave cmd with
  | spawnError e => simp
  | timesOut => simp
  | completes returncode stdout stderr =>
    by_cases h : returncode = 0 <;> simp [h]

/-- Counterexample for C8 as stated: on a timed-out `sleep 10` with
`timeout = 1`, the executor performs no process-group (tree) kill — the
children of the spawned shell are not killed — even though the timeout
branch was taken (the result is the failure result). -/
theorem claim_C8_counterexample :
    (execute_command_async (fun _ => ProcBehavior.timesOut)
        { name := "Slow Command", command := "sleep 10", timeout := 1 }).1.success = false
    ∧ killsProcessTree
        (execute_command_async (fun _ => ProcBehavior.timesOut)
          { name := "Slow Command", command := "sleep 10", timeout := 1 }).2 = false :=
  ⟨rfl, rfl⟩

/-- Claim C8 (amended): when execution exceeds the configured timeout the
executor kills the spawned shell process (no separate kill is issued for
its children) and returns `success = false` with error message
`"Command timed out after N seconds"` — containing
`"timed out after N seconds"` with `N` the spec's timeout value. -/
theorem claim_C8_timeout_kills_process_and_reports
    (behave : ContextCommand → ProcBehavior) (cmd : ContextCommand)
    (h : behave cmd = ProcBehavior.timesOut) :
    (execute_command_async behave cmd).1.success = false
    ∧ (execute_command_async behave cmd).1.error_message =
        some ("Command timed out after " ++ toString cmd.timeout ++ " seconds")
    ∧ (∃ pre post,
        "Command timed out after " ++ toString cmd.timeout ++ " seconds" =
          pre ++ ("timed out after " ++ toString cmd.timeout ++ " seconds") ++ post)
    ∧ (execute_command_async behave cmd).2 = [KillAction.killProcess] := by
  unfold execute_command_async
  rw [h]
  refine ⟨rfl, rfl, ⟨"Command ", "", ?_⟩, rfl⟩
  simp [← String.append_assoc]

/-- Witness for C8 (amended), at `sleep 10` with `timeout = 1`. -/
theorem claim_C8_witness :
    (execute_command_async (fun _ => ProcBehavior.timesOut)
        { name := "Slow Command", command := "sleep 10", timeout := 1 }).1.success = false
    ∧ (execute_command_async (fun _ => ProcBehavior.timesOut)
        { name := "Slow Command", command := "sleep 10", timeout := 1 }).1.error_message =
        some ("Command timed out after " ++ toString (1 : Nat) ++ " seconds")
    ∧ (∃ pre post,
        "Command timed out after " ++ toString (1 : Nat) ++ " seconds" =
          pre ++ ("timed out after " ++ toString (1 : Nat) ++ " seconds") ++ post)
    ∧ (execute_command_async (fun _ => ProcBehavior.timesOut)
        { name := "Slow Command", command := "sleep 10", timeout := 1 }).2 =
        [KillAction.killProcess] :=
  claim_C8_timeout_kills_process_and_reports
    (fun _ => ProcBehavior.timesOut)
    { name := "Slow Command", command := "sleep 10", timeout := 1 } rfl

end Cllm
namespace Cllm

/-- In the gather model, looking up a task's index in the completed-slot
list finds that task's own result, whatever the completion order. -/
theorem gather_lookup_self (runCmd : ContextCommand → CommandResult)
    (commands : List ContextCommand) :
    ∀ (order : List Nat) (i : Nat) (c : ContextCommand),
      i ∈ order → commands[i]? = some c →
      (order.filterMap
        (fun j => (commands[j]?).map (fun cc => (j, runCmd cc)))).lookup i =
        some (runCmd c) := by
  intro order
  induction order with
  | nil => intro i c hi _; cases hi
  | cons j rest ih =>
    intro i c hi hc
    by_cases hji : j = i
    · subst hji
      simp [List.filterMap_cons, hc, List.lookup]
    · have hi' : i ∈ rest := by
        rcases List.mem_cons.mp hi with h | h
        · exact absurd h.symm hji
        · exact h
      cases hcj : commands[j]? with
      | none =>
        simpa [List.filterMap_cons, hcj] using ih i c hi' hc
      | some cj =>
        have hbeq : (i == j) = false := beq_eq_false_iff_ne.mpr (Ne.symm hji)
        simpa [List.filterMap_cons, hcj, List.lookup, hbeq] using ih i c hi' hc

/-- A `filterMap` that always hits is a `map`. -/
theorem filterMap_congr_map {α β : Type} {l : List α} {g : α → Option β}
    {f : α → β} (h : ∀ a ∈ l, g a = some (f a)) : l.filterMap g = l.map f := by
  induction l with
  | nil => rfl
  | cons a l ih =>
    rw [List.filterMap_cons, List.map_cons, h a (List.mem_cons_self a l),
      ih (fun x hx => h x (List.mem_cons_of_mem a hx))]

/-- The gather model returns the results in input order whenever the
completion order is a permutation of the task indices. -/
theorem gatherResults_eq_map (runCmd : ContextCommand → CommandResult)
    (commands : List ContextCommand) (order : List Nat)
    (hperm : order.Perm (List.range commands.length)) :
    gatherResults runCmd commands order = commands.map runCmd := by
  classical
  unfold gatherResults
  have hval : ∀ i ∈ List.range commands.length,
      ((order.filterMap
        (fun j => (commands[j]?).map (fun cc => (j, runCmd cc)))).lookup i) =
        some (((commands[i]?).map runCmd).getD
          (runCmd { name := "", command := "" })) := by
    intro i hi
    have hlt : i < commands.length := List.mem_range.mp hi
    obtain ⟨c, hc⟩ : ∃ c, commands[i]? = some c :=
      ⟨commands[i], List.getElem?_eq_getElem hlt⟩
    rw [gather_lookup_self runCmd commands order i c (hperm.mem_iff.mpr hi) hc, hc]
    rfl
  rw [filterMap_congr_map hval]
  apply List.ext_getElem?
  intro k
  by_cases hk : k < commands.length
  · obtain ⟨c, hc⟩ : ∃ c, commands[k]? = some c :=
      ⟨commands[k], List.getElem?_eq_getElem hk⟩
    rw [List.getElem?_map, List.getElem?_map, hc, List.getElem?_range hk]
    simp [hc]
  · rw [List.getElem?_map, List.getElem?_map]
    rw [List.getElem?_eq_none (by simpa using Nat.le_of_not_lt hk),
      List.getElem?_eq_none (by simpa using Nat.le_of_not_lt hk)]
    rfl

/-- Claim C6: `execute_commands` returns one result per input spec, in
input order, in both parallel mode (for every completion order of the
gather) and sequential mode; the empty batch yields the empty result list
for every executor oracle (no process is consulted). -/
theorem claim_C6_results_in_input_order :
    (∀ (runCmd : ContextCommand → CommandResult)
       (commands : List ContextCommand) (parallel : Bool)
       (completionOrder : List Nat),
      completionOrder.Perm (List.range commands.length) →
      execute_commands runCmd commands parallel completionOrder =
        commands.map runCmd)
    ∧ (∀ (runCmd : ContextCommand → CommandResult) (parallel : Bool)
         (completionOrder : List Nat),
        execute_commands runCmd [] parallel completionOrder = []) := by
  constructor
  · intro runCmd commands parallel order hperm
    unfold execute_commands
    cases hemp : commands.isEmpty with
    | true =>
      rw [List.isEmpty_iff] at hemp
      subst hemp
      rfl
    | false =>
      cases parallel with
      | true => simpa using gatherResults_eq_map runCmd commands order hperm
      | false => simp
  · intro runCmd parallel completionOrder
    rfl

/-- Witness for C6: two commands gathered with reversed completion order
still come back in input order. -/
theorem claim_C6_witness :
    execute_commands sampleRun
      [{ name := "Cmd 1", command := "echo first" },
       { name := "Cmd 2", command := "echo second" }] true [1, 0] =
      [{ name := "Cmd 1", command := "echo first" },
       { name := "Cmd 2", command := "echo second" }].map sampleRun :=
  claim_C6_results_in_input_order.1 sampleRun
    [{ name := "Cmd 1", command := "echo first" },
     { name := "Cmd 2", command := "echo second" }] true [1, 0] (by decide)

end Cllm
namespace Cllm

/-- Claim C5: tool calls whose command fails validation each get exactly one
tool-result message explaining the rejection, leave `commands_executed`
unchanged, and let the turn run on to the next completion call (the result
is `.next`, never a denial or an exception). -/
theorem claim_C5_validation_rejection_is_recoverable
    (config : Config) (runCmd : ContextCommand → CommandResult)
    (confirm : String → String → Bool) (require_confirmation : Bool) :
    (∀ (tc : ToolCall) (rest : List ToolCall) (messages : List Message)
       (count : Nat) (command reason : String),
      tc.arguments = .ok (command, reason) →
      is_command_allowed command config = false →
      processToolCalls config runCmd confirm require_confirmation
          (tc :: rest) messages count =
        processToolCalls config runCmd confirm require_confirmation rest
          (messages ++ [.tool tc.id ("Command validation failed: " ++
            get_disallowed_reason command config)]) count)
    ∧ (∀ (calls : List ToolCall) (messages : List Message) (count : Nat),
      (∀ tc ∈ calls, ∃ command reason, tc.arguments = .ok (command, reason) ∧
        is_command_allowed command config = false) →
      processToolCalls config runCmd confirm require_confirmation
          calls messages count =
        .next (messages ++ calls.map (rejectedToolResult config)) count) := by
  constructor
  · intro tc rest messages count command reason harg hdis
    rw [processToolCalls, harg]
    simp [hdis]
  intro calls
  induction calls with
  | nil => intro messages count _; simp [processToolCalls]
  | cons tc rest ih =>
    intro messages count h
    obtain ⟨command, reason, harg, hdis⟩ := h tc (List.mem_cons_self tc rest)
    have hmsg : rejectedToolResult config tc =
        .tool tc.id ("Command validation failed: " ++
          get_disallowed_reason command config) := by
      simp [rejectedToolResult, harg]
    rw [processToolCalls, harg]
    simp only [hdis, if_pos rfl]
    rw [ih _ count (fun x hx => h x (List.mem_cons_of_mem tc hx))]
    simp [hmsg]

/-- Witness for C5: a single tool call asking for `rm -rf /` under the
default (safe-defaults) policy is rejected, feeds one explanatory message
back, and counts nothing. -/
theorem claim_C5_witness :
    processToolCalls {} sampleRun (fun _ _ => true) false
        [{ id := "call_1", arguments := .ok ("rm -rf /", "clean up") }] [] 0 =
      .next ([] ++
        [({ id := "call_1", arguments := .ok ("rm -rf /", "clean up") } :
          ToolCall)].map (rejectedToolResult {})) 0 :=
  (claim_C5_validation_rejection_is_recoverable {} sampleRun (fun _ _ => true)
    false).2 [{ id := "call_1", arguments := .ok ("rm -rf /", "clean up") }] [] 0
    (by
      intro tc htc
      rw [List.mem_singleton] at htc
      subst htc
      exact ⟨"rm -rf /", "clean up", rfl, by decide⟩)

/-- Processing the tool calls of one turn never pushes the counter past
`max_commands`, provided the turn started below the bound (which the
`while` condition guarantees): the loop breaks as soon as the bound is
reached. -/
theorem processToolCalls_count_le
    (config : Config) (runCmd : ContextCommand → CommandResult)
    (confirm : String → String → Bool) (require_confirmation : Bool) :
    ∀ (calls : List ToolCall) (messages : List Message) (count : Nat),
      count < config.dynamic_commands.max_commands →
      (processToolCalls config runCmd confirm require_confirmation
          calls messages count).count ≤
        config.dynamic_commands.max_commands := by
  intro calls
  induction calls with
  | nil =>
    intro messages count h
    simpa [processToolCalls, TurnResult.count] using Nat.le_of_lt h
  | cons tc rest ih =>
    intro messages count h
    rw [processToolCalls]
    cases harg : tc.arguments with
    | error e => exact ih _ count h
    | ok args =>
      obtain ⟨command, reason⟩ := args
      cases hval : is_command_allowed command config with
      | false =>
        simp only [hval, if_pos rfl]
        exact ih _ count h
      | true =>
        cases hconf : require_confirmation && !(confirm command reason) with
        | true =>
          simp only [hval, hconf]
          simpa [TurnResult.count] using Nat.le_of_lt h
        | false =>
          simp only [hval, hconf]
          by_cases hbreak : config.dynamic_commands.max_commands ≤ count + 1
          · simp only [if_pos hbreak]
            simpa [TurnResult.count] using Nat.succ_le_of_lt h
          · simp only [if_neg hbreak]
            exact ih _ (count + 1) (Nat.lt_of_not_le hbreak)

/-- The loop invariant of the agent loop: `commands_executed` never
exceeds `max_commands`. -/
theorem agentLoop_count_le (config : Config)
    (llm : List Message → Except String LLMResponse)
    (runCmd : ContextCommand → CommandResult)
    (confirm : String → String → Bool) (require_confirmation : Bool) :
    ∀ (fuel : Nat) (messages : List Message) (count : Nat),
      count ≤ config.dynamic_commands.max_commands →
      (agentLoop config llm runCmd confirm require_confirmation
          fuel messages count).commands_executed ≤
        config.dynamic_commands.max_commands := by
  intro fuel
  induction fuel with
  | zero => intro messages count h; simpa [agentLoop] using h
  | succ fuel ih =>
    intro messages count h
    rw [agentLoop]
    by_cases hlt : count < config.dynamic_commands.max_commands
    · rw [if_pos hlt]
      cases hllm : llm messages with
      | error e => simpa using h
      | ok resp =>
        cases resp with
        | toolCalls calls =>
          have hturn := processToolCalls_count_le config runCmd confirm
            require_confirmation calls (messages ++ [.assistant calls]) count hlt
          cases hres : processToolCalls config runCmd confirm
              require_confirmation calls (messages ++ [.assistant calls]) count with
          | denied count' =>
            rw [hres] at hturn
            simp only [hres]
            simpa [TurnResult.count] using hturn
          | next messages' count' =>
            rw [hres] at hturn
            simp only [hres]
            exact ih messages' count' (by simpa [TurnResult.count] using hturn)
        | stop content =>
          cases content with
          | none => simpa using h
          | some c => by_cases hc : c ≠ "" <;> simp [hc] <;> exact h
        | other finish_reason content =>
          cases content with
          | none => simpa using h
          | some c => by_cases hc : c ≠ "" <;> simp [hc] <;> exact h
    · rw [if_neg hlt]
      simpa using h

/-- Claim C2: over every run of `execute_with_dynamic_commands` the number
of executed commands never exceeds `max_commands`; with `max_commands = 3`
and an LLM that requests a command on every turn, exactly 3 commands are
executed and the loop raises the budget error, whose message mentions the
configured limit 3. -/
theorem claim_C2_commands_executed_bounded_by_max_commands :
    (∀ (config : Config) (llm : List Message → Except String LLMResponse)
       (runCmd : ContextCommand → CommandResult)
       (confirm : String → String → Bool) (require_confirmation : Bool)
       (fuel : Nat) (prompt : String),
      (execute_with_dynamic_commands config llm runCmd confirm
          require_confirmation fuel prompt).commands_executed ≤
        config.dynamic_commands.max_commands)
    ∧ execute_with_dynamic_commands sampleBudgetConfig sampleGreedyLLM
        sampleRun (fun _ _ => true) false 10 "how many files?" =
      { outcome := some (.error (budget_error_message 3)),
        commands_executed := 3 }
    ∧ (∃ pre post, budget_error_message 3 = pre ++ "3" ++ post) := by
  refine ⟨?_, by rfl, ⟨"Maximum command execution limit reached (",
    " commands). The LLM may be stuck in a loop or the task requires more " ++
      "commands than allowed. Increase max_commands in your configuration if needed.",
    by rfl⟩⟩
  intro config llm runCmd confirm require_confirmation fuel prompt
  exact agentLoop_count_le config llm runCmd confirm require_confirmation
    fuel _ 0 (Nat.zero_le _)

end Cllm
namespace Cllm

/-- If some command's template fails to render, the rendering pass of
`inject_context` aborts with an error. -/
theorem renderCommands_error_of_mem (render : String → Except String String)
    (availableDesc : String) :
    ∀ (commands : List ContextCommand),
      (∃ cmd ∈ commands, ∃ e, render cmd.command = .error e) →
      ∃ msg, renderCommands render availableDesc commands = .error msg := by
  intro commands
  induction commands with
  | nil => rintro ⟨cmd, hmem, _⟩; cases hmem
  | cons c rest ih =>
    rintro ⟨cmd, hmem, e, he⟩
    cases hr : render c.command with
    | error err =>
      exact ⟨templateErrorMessage availableDesc c err, by simp [renderCommands, hr]⟩
    | ok rendered =>
      have hrest : ∃ cmd ∈ rest, ∃ e, render cmd.command = .error e := by
        rcases List.mem_cons.mp hmem with h | h
        · subst h; rw [hr] at he; cases he
        · exact ⟨cmd, h, e, he⟩
      obtain ⟨msg, hmsg⟩ := ih hrest
      exact ⟨msg, by simp [renderCommands, hr, hmsg]⟩

/-- Claim C7: if any command's template fails to render, `inject_context`
raises a `TemplateError` and no command of the batch is executed (the
executed-command trace is empty), whatever the commands' `on_failure`
settings. -/
theorem claim_C7_template_error_aborts_before_any_execution
    (render : String → Except String String) (availableDesc : String)
    (runCmd : ContextCommand → CommandResult) (parallel : Bool)
    (completionOrder : List Nat) (prompt : String)
    (commands : List ContextCommand)
    (h : ∃ cmd ∈ commands, ∃ e, render cmd.command = .error e) :
    ∃ msg, inject_context render availableDesc runCmd parallel completionOrder
        prompt commands = (.error (.template msg), []) := by
  obtain ⟨msg, hmsg⟩ := renderCommands_error_of_mem render availableDesc commands h
  have hne : commands.isEmpty = false := by
    obtain ⟨cmd, hmem, _⟩ := h
    cases commands with
    | nil => cases hmem
    | cons _ _ => rfl
  exact ⟨msg, by simp [inject_context, hne, hmsg]⟩

/-- Witness for C7: the second command's template fails, the first has
`on_failure = FAIL`; `inject_context` raises the template error with an
empty executed trace. -/
theorem claim_C7_witness :
    ∃ msg, inject_context sampleRender "" sampleRun true [0, 1] "what changed?"
        [{ name := "Good", command := "echo hi", on_failure := .fail },
         { name := "Bad", command := "cat missing.tpl", on_failure := .warn }] =
      (.error (.template msg), []) :=
  claim_C7_template_error_aborts_before_any_execution sampleRender "" sampleRun
    true [0, 1] "what changed?"
    [{ name := "Good", command := "echo hi", on_failure := .fail },
     { name := "Bad", command := "cat missing.tpl", on_failure := .warn }]
    ⟨{ name := "Bad", command := "cat missing.tpl", on_failure := .warn },
      by decide, "Undefined variable in command template: MISSING", rfl⟩

/-- `renderCommands` succeeds with one rendered command per input. -/
theorem renderCommands_ok_length (render : String → Except String String)
    (availableDesc : String) :
    ∀ (commands : List ContextCommand) (rendered : List ContextCommand),
      renderCommands render availableDesc commands = .ok rendered →
      rendered.length = commands.length := by
  intro commands
  induction commands with
  | nil =>
    intro rendered h
    simp only [renderCommands, Except.ok.injEq] at h
    subst h; rfl
  | cons c rest ih =>
    intro rendered h
    simp only [renderCommands] at h
    cases hr : render c.command with
    | error err => rw [hr] at h; cases h
    | ok rc =>
      rw [hr] at h
      cases hrest : renderCommands render availableDesc rest with
      | error err => rw [hrest] at h; cases h
      | ok rs =>
        rw [hrest] at h
        simp only [Except.ok.injEq] at h
        subst h
        simp [ih rs hrest]

/-- If some pair in the processed batch is a failed `FAIL` command, the
result-processing pass of `inject_context` raises. -/
theorem processResults_error_of_fail :
    ∀ (pairs : List (ContextCommand × CommandResult)),
      (∃ p ∈ pairs, p.1.on_failure = FailureMode.fail ∧ p.2.success = false) →
      ∃ msg, processResults pairs = .error msg := by
  intro pairs
  induction pairs with
  | nil => rintro ⟨p, hp, _⟩; cases hp
  | cons q rest ih =>
    rintro ⟨p, hp, hfail, hsucc⟩
    obtain ⟨cmd, result⟩ := q
    by_cases hs : result.success = true
    · have hrest : ∃ p ∈ rest, p.1.on_failure = FailureMode.fail ∧ p.2.success = false := by
        rcases List.mem_cons.mp hp with h | h
        · subst h; rw [hs] at hsucc; cases hsucc
        · exact ⟨p, h, hfail, hsucc⟩
      obtain ⟨msg, hmsg⟩ := ih hrest
      exact ⟨msg, by simp [processResults, hs, hmsg, Except.map]⟩
    · cases hof : cmd.on_failure with
      | fail =>
        refine ⟨"Context command '" ++ cmd.name ++ "' failed: " ++
          (match result.error_message with
           | some m => m
           | none => "None"), ?_⟩
        simp [processResults, hs, hof]
      | warn =>
        have hrest : ∃ p ∈ rest, p.1.on_failure = FailureMode.fail ∧ p.2.success = false := by
          rcases List.mem_cons.mp hp with h | h
          · rw [h] at hfail; rw [hof] at hfail; cases hfail
          · exact ⟨p, h, hfail, hsucc⟩
        obtain ⟨msg, hmsg⟩ := ih hrest
        exact ⟨msg, by simp [processResults, hs, hof, hmsg, Except.map]⟩
      | ignore =>
        have hrest : ∃ p ∈ rest, p.1.on_failure = FailureMode.fail ∧ p.2.success = false := by
          rcases List.mem_cons.mp hp with h | h
          · rw [h] at hfail; rw [hof] at hfail; cases hfail
          · exact ⟨p, h, hfail, hsucc⟩
        obtain ⟨msg, hmsg⟩ := ih hrest
        exact ⟨msg, by simp [processResults, hs, hof, hmsg, Except.map]⟩

/-- Claim C9: when `inject_context` aborts because a rendered command with
`on_failure = FAIL` failed, the executed-command trace is the whole
rendered batch — one executed command per input command, those after the
failing one included: the `FAIL` check runs only after `execute_commands`
has executed everything. -/
theorem claim_C9_fail_aborts_only_after_all_executions
    (render : String → Except String String) (availableDesc : String)
    (runCmd : ContextCommand → CommandResult) (parallel : Bool)
    (completionOrder : List Nat) (prompt : String)
    (commands rendered : List ContextCommand)
    (hrend : renderCommands render availableDesc commands = .ok rendered)
    (hfail : ∃ p ∈ rendered.zip
        (execute_commands runCmd rendered parallel completionOrder),
      p.1.on_failure = FailureMode.fail ∧ p.2.success = false) :
    (∃ msg, inject_context render availableDesc runCmd parallel completionOrder
        prompt commands = (.error (.commandFailed msg), rendered))
    ∧ rendered.length = commands.length := by
  have hlen := renderCommands_ok_length render availableDesc commands rendered hrend
  obtain ⟨msg, hmsg⟩ := processResults_error_of_fail _ hfail
  have hne : commands.isEmpty = false := by
    obtain ⟨p, hp, _⟩ := hfail
    cases commands with
    | nil =>
      simp only [renderCommands, Except.ok.injEq] at hrend
      subst hrend
      simp at hp
    | cons _ _ => rfl
  exact ⟨⟨msg, by simp [inject_context, hne, hrend, hmsg]⟩, hlen⟩

end Cllm
namespace Cllm

/-- Witness for C9: the first command has `on_failure = FAIL` and fails,
yet the executed trace contains the second command too — it ran before the
abort. -/
theorem claim_C9_witness :
    (∃ msg, inject_context sampleRender "" sampleRunFailing false [] "summarize"
        [{ name := "Fails", command := "exit 1", on_failure := .fail },
         { name := "Later", command := "echo hi", on_failure := .warn }] =
      (.error (.commandFailed msg),
        [{ name := "Fails", command := "exit 1", on_failure := .fail },
         { name := "Later", command := "echo hi", on_failure := .warn }]))
    ∧ ([{ name := "Fails", command := "exit 1", on_failure := .fail },
        { name := "Later", command := "echo hi", on_failure := .warn }] :
          List ContextCommand).length =
      ([{ name := "Fails", command := "exit 1", on_failure := .fail },
        { name := "Later", command := "echo hi", on_failure := .warn }] :
          List ContextCommand).length :=
  claim_C9_fail_aborts_only_after_all_executions sampleRender "" sampleRunFailing
    false [] "summarize"
    [{ name := "Fails", command := "exit 1", on_failure := .fail },
     { name := "Later", command := "echo hi", on_failure := .warn }]
    [{ name := "Fails", command := "exit 1", on_failure := .fail },
     { name := "Later", command := "echo hi", on_failure := .warn }]
    rfl
    ⟨({ name := "Fails", command := "exit 1", on_failure := .fail },
      { name := "Fails", output := "", success := false,
        error_message := some "Command exited with code 1" }),
      by decide, rfl, rfl⟩

end Cllm
